import Mathlib

/-!
Verification of the MCP calendar relay (mcp_calendar_client.py and
claude_mcp_integration.py) against its specification.

The embedding is shallow: Python dictionaries become association lists,
JSON values become an inductive type, exceptions become `Except String`
(the string is Python's `str(e)`), and the two external collaborators
(the Anthropic model backend and the remote MCP calendar service) become
oracle functions collected in an `Env`.  Every network interaction is
recorded in a trace of `Call` values so that claims about "never contacts
the remote service" or "exactly N follow-up requests" are statable.
-/

/-- JSON-compatible values, for tool argument maps and payloads. -/
inductive JsonVal where
  | str : String → JsonVal
  | int : Int → JsonVal
  | bool : Bool → JsonVal
  | obj : List (String × JsonVal) → JsonVal
  | arr : List JsonVal → JsonVal
  | null : JsonVal

/-- An argument map, as passed to a tool: a Python dict in insertion order. -/
abbrev ArgMap := List (String × JsonVal)

/-- Dictionary lookup on an argument map. -/
def lookupArg (k : String) (m : ArgMap) : Option JsonVal :=
  List.lookup k m

/-- One tool object as discovered from the MCP server (fields `name`,
`description`, `inputSchema` of the `mcp` library's tool type). -/
structure McpTool where
  name : String
  description : String
  inputSchema : JsonVal

/-- The dict built by `get_available_tools`:
`\x7b"name": ..., "description": ..., "input_schema": ...\x7d`. -/
structure ToolDescriptor where
  name : String
  description : String
  input_schema : JsonVal

/-- The dict built by `_format_tools_for_claude`, in the model backend's
calling convention (same three fields). -/
structure ClaudeTool where
  name : String
  description : String
  input_schema : JsonVal

/-- The dict returned by `execute_tool` when no exception escapes it:
success flag, optional content payload, optional error string, tool name. -/
structure ToolInvocationResult where
  success : Bool
  content : Option JsonVal
  error : Option String
  tool_name : String

/-- Python's repr of a list of strings, as interpolated by
`f"... Available tools: \x7blist(self.tools.keys())\x7d"`. -/
def pyStrListRepr (xs : List String) : String :=
  let q := String.singleton (Char.ofNat 39)
  "[" ++ String.intercalate ", " (xs.map (fun s => q ++ s ++ q)) ++ "]"

/-- The message of the `ValueError` raised by `execute_tool` for an
unknown tool name. -/
def unknownToolMessage (tool_name : String) (reg : List String) : String :=
  let q := String.singleton (Char.ofNat 39)
  "Tool " ++ q ++ tool_name ++ q ++ " not available. Available tools: " ++
    pyStrListRepr reg

/-- One recorded network interaction of a turn. -/
inductive Call where
  | remote : String → ArgMap → Call
  | model_request : String → Call
  | model_followup : String → Call

/-- The bridge `CalendarMCPClient.execute_tool`, given the session's registry of tool
names (`self.tools.keys()`) and the remote service's behaviour `callTool`
(`self.session.call_tool`; `Except.error e` models the call raising an
exception with `str = e`).  Returns the result of the Python call —
`Except.error` when the `ValueError` for an unknown tool escapes,
`Except.ok` with the normalised result dict otherwise — paired with the
list of remote calls actually performed. -/
def execute_tool (reg : List String)
    (callTool : String → ArgMap → Except String JsonVal)
    (tool_name : String) (arguments : ArgMap) :
    Except String ToolInvocationResult × List Call :=
  if tool_name ∈ reg then
    match callTool tool_name arguments with
    | Except.ok content =>
        (Except.ok ⟨true, some content, none, tool_name⟩,
         [Call.remote tool_name arguments])
    | Except.error e =>
        (Except.ok ⟨false, none, some e, tool_name⟩,
         [Call.remote tool_name arguments])
  else
    (Except.error (unknownToolMessage tool_name reg), [])

/-- A trivial remote-service oracle for concrete evaluations. -/
def oracle0 : String → ArgMap → Except String JsonVal :=
  fun _ _ => Except.ok JsonVal.null

/-- One content block of a model response: a text segment, or a tool-use
segment carrying name, structured input and an invocation id. -/
inductive ContentBlock where
  | text : String → ContentBlock
  | tool_use : String → ArgMap → String → ContentBlock

/-- One message of a follow-up request to the model backend, as built in
`_handle_claude_response`: the placeholder user message, the echoed
assistant content, and the tool_result message (invocation id plus the
tool result whose JSON serialisation the code sends). -/
inductive Message where
  | user_text : String → Message
  | assistant : List ContentBlock → Message
  | tool_result : String → ToolInvocationResult → Message

/-- One entry of the `results` list accumulated during a turn. -/
inductive ResultEntry where
  | text : String → ResultEntry
  | tool_execution : String → String → ArgMap → ToolInvocationResult → ResultEntry
  | final_response : String → ResultEntry

/-- The dict returned by `process_request`: on success
`\x7b"success": True, "results": ..., "raw_response": ...\x7d`, on a caught
exception `\x7b"success": False, "error": ..., "response": None\x7d`. -/
inductive Outcome where
  | ok : List ResultEntry → List ContentBlock → Outcome
  | failed : String → Outcome

/-- The `success` field of the outcome dict. -/
def Outcome.success : Outcome → Bool
  | Outcome.ok _ _ => true
  | Outcome.failed _ => false

/-- The `results` field of the outcome dict (absent on failure). -/
def Outcome.results : Outcome → Option (List ResultEntry)
  | Outcome.ok rs _ => some rs
  | Outcome.failed _ => none

/-- The `error` field of the outcome dict (absent on success). -/
def Outcome.error : Outcome → Option String
  | Outcome.ok _ _ => none
  | Outcome.failed e => some e

/-- The result entries of an outcome, empty on failure. -/
def Outcome.entries (o : Outcome) : List ResultEntry :=
  (Outcome.results o).getD []

/-- The behaviour of the two external collaborators during a session:
`create` is the initial `client.messages.create` call (a function of the
tool specs and the user message), `followUp` the follow-up
`client.messages.create` call (a function of its message list), and
`callTool` the remote service's `session.call_tool`.  An `Except.error e`
models the call raising an exception with `str = e`. -/
structure Env where
  create : List ClaudeTool → String → Except String (List ContentBlock)
  followUp : List Message → Except String (List ContentBlock)
  callTool : String → ArgMap → Except String JsonVal

/-- The result entry a text block of a follow-up reply contributes. -/
def finalEntryOf : ContentBlock → Option ResultEntry
  | ContentBlock.text s => some (ResultEntry.final_response s)
  | _ => none

/-- The per-block loop of `_handle_claude_response`.  `respC` is the full
`response.content` list (echoed into every follow-up request); the fourth
argument is the suffix of blocks still to process.  Returns the
accumulated result entries (or the first escaping exception) and the
trace of calls performed, in order. -/
def handleBlocks (reg : List String) (env : Env) (respC : List ContentBlock) :
    List ContentBlock → Except String (List ResultEntry) × List Call
  | [] => (Except.ok [], [])
  | ContentBlock.text s :: rest =>
      let r := handleBlocks reg env respC rest
      (Except.map (fun rs => ResultEntry.text s :: rs) r.1, r.2)
  | ContentBlock.tool_use n a i :: rest =>
      match execute_tool reg env.callTool n a with
      | (Except.error e, calls) => (Except.error e, calls)
      | (Except.ok tres, calls) =>
          let msgs := [Message.user_text "Previous request",
                       Message.assistant respC,
                       Message.tool_result i tres]
          match env.followUp msgs with
          | Except.error e => (Except.error e, calls ++ [Call.model_followup i])
          | Except.ok fblocks =>
              let finals := fblocks.filterMap finalEntryOf
              let r := handleBlocks reg env respC rest
              (Except.map (fun rs => ResultEntry.tool_execution n i a tres :: (finals ++ rs)) r.1,
               calls ++ [Call.model_followup i] ++ r.2)

/-- The body of `_handle_claude_response`: process every content block of
the response and, when no exception escapes, wrap the entries in the
success dict (always `success = True` there). -/
def handle_claude_response (reg : List String) (env : Env)
    (response : List ContentBlock) : Except String Outcome × List Call :=
  match handleBlocks reg env response response with
  | (Except.ok rs, tr) => (Except.ok (Outcome.ok rs response), tr)
  | (Except.error e, tr) => (Except.error e, tr)

/-- The registry of tool names of a session (`self.tools.keys()`). -/
def registryOf (tools : List McpTool) : List String :=
  tools.map McpTool.name

/-- The body `get_available_tools`: build one descriptor dict per
discovered tool, by appending to an initially empty list. -/
def get_available_tools (tools : List McpTool) : List ToolDescriptor :=
  tools.foldl (fun acc t => acc ++ [⟨t.name, t.description, t.inputSchema⟩]) []

/-- The adapter `_format_tools_for_claude`: build one model-facing tool
dict per descriptor, by appending to an initially empty list. -/
def format_tools_for_claude (mcp_tools : List ToolDescriptor) : List ClaudeTool :=
  mcp_tools.foldl (fun acc t => acc ++ [⟨t.name, t.description, t.input_schema⟩]) []

/-- The protected body of `process_request` (everything inside its `try`):
the initial model request followed by `_handle_claude_response`.  The
trace records the initial request and all calls made before an exception
escaped. -/
def turn_body (tools : List McpTool) (env : Env) (user_message : String) :
    Except String Outcome × List Call :=
  match env.create (format_tools_for_claude (get_available_tools tools)) user_message with
  | Except.error e => (Except.error e, [Call.model_request user_message])
  | Except.ok response =>
      let r := handle_claude_response (registryOf tools) env response
      (r.1, Call.model_request user_message :: r.2)

/-- The turn entry point `process_request`: run the body and convert any
escaping exception into the failure dict
`\x7b"success": False, "error": "Failed to process request: " + str(e),
"response": None\x7d`. -/
def process_request (tools : List McpTool) (env : Env) (user_message : String) :
    Outcome × List Call :=
  match turn_body tools env user_message with
  | (Except.ok out, tr) => (out, tr)
  | (Except.error e, tr) => (Outcome.failed ("Failed to process request: " ++ e), tr)

/-- Python truthiness of an optional string (`if description:`):
`None` and `""` are falsy. -/
def pyTruthyStr : Option String → Bool
  | none => false
  | some s => !s.isEmpty

/-- Python truthiness of an optional list (`if attendees:`):
`None` and `[]` are falsy. -/
def pyTruthyList {α : Type} : Option (List α) → Bool
  | none => false
  | some l => !l.isEmpty

/-- The argument dict built by `create_calendar_event`: summary, start and
end (each with the fixed timezone), then description and attendees only
when truthy. -/
def create_calendar_event_args (summary start_time end_time : String)
    (description : Option String) (attendees : Option (List String)) : ArgMap :=
  let args : ArgMap :=
    [("summary", JsonVal.str summary),
     ("start", JsonVal.obj [("dateTime", JsonVal.str start_time),
                            ("timeZone", JsonVal.str "America/New_York")]),
     ("end", JsonVal.obj [("dateTime", JsonVal.str end_time),
                          ("timeZone", JsonVal.str "America/New_York")])]
  let args := if pyTruthyStr description then
      args ++ [("description", JsonVal.str (description.getD ""))] else args
  if pyTruthyList attendees then
    args ++ [("attendees", JsonVal.arr ((attendees.getD []).map
      (fun e => JsonVal.obj [("email", JsonVal.str e)])))]
  else args

/-- The convenience method `create_calendar_event`: build the argument
dict and hand it to the bridge under the fixed tool name. -/
def create_calendar_event (reg : List String)
    (callTool : String → ArgMap → Except String JsonVal)
    (summary start_time end_time : String)
    (description : Option String := none)
    (attendees : Option (List String) := none) :
    Except String ToolInvocationResult × List Call :=
  execute_tool reg callTool "create_calendar_event"
    (create_calendar_event_args summary start_time end_time description attendees)

/-- The argument dict built by `list_events`: always `maxResults`, then
`timeMin` and `timeMax` only when truthy. -/
def list_events_args (time_min time_max : Option String) (max_results : Int) : ArgMap :=
  let args : ArgMap := [("maxResults", JsonVal.int max_results)]
  let args := if pyTruthyStr time_min then
      args ++ [("timeMin", JsonVal.str (time_min.getD ""))] else args
  if pyTruthyStr time_max then
    args ++ [("timeMax", JsonVal.str (time_max.getD ""))]
  else args

/-- The convenience method `list_events` (default result cap 10): build
the argument dict and hand it to the bridge under the fixed tool name. -/
def list_events (reg : List String)
    (callTool : String → ArgMap → Except String JsonVal)
    (time_min : Option String := none) (time_max : Option String := none)
    (max_results : Int := 10) :
    Except String ToolInvocationResult × List Call :=
  execute_tool reg callTool "list_calendar_events"
    (list_events_args time_min time_max max_results)

/-- Python's `str.lower`, modelled per character (ASCII case mapping). -/
def pyLower (s : String) : String :=
  String.mk (s.data.map Char.toLower)

/-- The value returned by `CalendarAssistant.process_command`: the
`\x7b"action": "quit"\x7d` dict, or the outcome of the delegated turn. -/
inductive CommandResult where
  | quit : CommandResult
  | outcome : Outcome → CommandResult

/-- The command dispatcher `CalendarAssistant.process_command`:
`command.lower()` equal to `quit` or `exit` returns the quit action,
anything else is forwarded to `process_request`. -/
def process_command (tools : List McpTool) (env : Env) (command : String) :
    CommandResult × List Call :=
  if pyLower command ∈ (["quit", "exit"] : List String) then
    (CommandResult.quit, [])
  else
    let r := process_request tools env command
    (CommandResult.outcome r.1, r.2)

/-- Whether a content block is a tool-use segment. -/
def isToolUse : ContentBlock → Bool
  | ContentBlock.tool_use _ _ _ => true
  | _ => false

/-- The number of tool-use segments of a response. -/
def countToolUse (bs : List ContentBlock) : Nat :=
  bs.countP isToolUse

/-- Whether a recorded call is a remote tool invocation. -/
def isRemote : Call → Bool
  | Call.remote _ _ => true
  | _ => false

/-- Whether a recorded call is a follow-up model request. -/
def isFollowup : Call → Bool
  | Call.model_followup _ => true
  | _ => false

/-- The number of remote tool invocations of a trace. -/
def countRemote (tr : List Call) : Nat :=
  tr.countP isRemote

/-- The number of follow-up model requests of a trace. -/
def countFollowup (tr : List Call) : Nat :=
  tr.countP isFollowup

/-- The calls a single content block gives rise to when its tool is
registered and the follow-up request succeeds. -/
def blockTrace : ContentBlock → List Call
  | ContentBlock.tool_use n a i => [Call.remote n a, Call.model_followup i]
  | _ => []

/-- The result entry a text block contributes. -/
def textEntryOf : ContentBlock → Option ResultEntry
  | ContentBlock.text s => some (ResultEntry.text s)
  | _ => none

/-- A session environment whose initial model request raises. -/
def envFail : Env :=
  ⟨fun _ _ => Except.error "boom", fun _ => Except.ok [], oracle0⟩

/-- A session environment whose model reply is a single text segment. -/
def envText : Env :=
  ⟨fun _ _ => Except.ok [ContentBlock.text "hello"], fun _ => Except.ok [], oracle0⟩

/-- A one-tool session for the remote-failure scenarios. -/
def toolsC3 : List McpTool := [⟨"t", "d", JsonVal.null⟩]

/-- A model reply consisting of one tool-use segment for tool `t`. -/
def respC3 : List ContentBlock := [ContentBlock.tool_use "t" [] "i1"]

/-- Remote failure with a non-empty stringified cause; model requests succeed. -/
def envC3 : Env :=
  ⟨fun _ _ => Except.ok respC3, fun _ => Except.ok [],
   fun _ _ => Except.error "bad arguments"⟩

/-- Remote failure whose stringified cause is the empty string. -/
def envC3a : Env :=
  ⟨fun _ _ => Except.ok respC3, fun _ => Except.ok [],
   fun _ _ => Except.error ""⟩

/-- Remote failure followed by a follow-up model request that raises. -/
def envC3b : Env :=
  ⟨fun _ _ => Except.ok respC3, fun _ => Except.error "overloaded",
   fun _ _ => Except.error ""⟩

/-- A model reply with two tool-use segments, the first naming an
unregistered tool. -/
def blocksC4 : List ContentBlock :=
  [ContentBlock.tool_use "foo" [] "i1", ContentBlock.tool_use "t" [] "i2"]

/-- An environment for the unknown-tool scenario. -/
def envC4 : Env :=
  ⟨fun _ _ => Except.ok blocksC4, fun _ => Except.ok [], oracle0⟩

/-- A two-segment all-tool-use reply over registered tools. -/
def blocksC4w : List ContentBlock :=
  [ContentBlock.tool_use "t" [] "i1", ContentBlock.tool_use "u" [] "i2"]

/-- An environment for the two-registered-tool scenario. -/
def envC4w : Env :=
  ⟨fun _ _ => Except.ok blocksC4w, fun _ => Except.ok [], oracle0⟩

lemma appendFold_eq_map {α β : Type} (f : α → β) :
    ∀ (l : List α) (acc : List β),
      l.foldl (fun a x => a ++ [f x]) acc = acc ++ l.map f := by
  intro l
  induction l with
  | nil => intro acc; simp
  | cons x xs ih => intro acc; simp [List.foldl, ih]

lemma format_tools_for_claude_eq_map (ts : List ToolDescriptor) :
    format_tools_for_claude ts =
      ts.map (fun t => ClaudeTool.mk t.name t.description t.input_schema) := by
  simpa using appendFold_eq_map (fun t : ToolDescriptor =>
    ClaudeTool.mk t.name t.description t.input_schema) ts []

lemma get_available_tools_eq_map (tools : List McpTool) :
    get_available_tools tools =
      tools.map (fun t => ToolDescriptor.mk t.name t.description t.inputSchema) := by
  simpa using appendFold_eq_map (fun t : McpTool =>
    ToolDescriptor.mk t.name t.description t.inputSchema) tools []

/-- C6: the adapter produces exactly one model tool spec per descriptor,
with name, description and input schema copied unchanged, and preserves
the input order (position i of the output is the image of position i of
the input). -/
theorem C6_adapter_one_to_one :
    ∀ (ts : List ToolDescriptor) (i : Nat),
      (format_tools_for_claude ts).length = ts.length ∧
      (format_tools_for_claude ts)[i]? =
        ts[i]?.map (fun t => ClaudeTool.mk t.name t.description t.input_schema) := by
  intro ts i
  rw [format_tools_for_claude_eq_map]
  exact ⟨List.length_map _ _, by simp⟩

/-- C7 counterexample: a descriptor whose name is the empty string is
accepted into the adapter's output unchanged, so the adapter does not
validate non-emptiness of names. -/
theorem C7_counterexample :
    ClaudeTool.mk "" "d" JsonVal.null ∈
      format_tools_for_claude [ToolDescriptor.mk "" "d" JsonVal.null] := by
  rw [format_tools_for_claude_eq_map]
  exact List.mem_map_of_mem _ (List.mem_singleton.mpr rfl)

/-- C7 (amended): the adapter performs no validation at all — every
descriptor, an empty-named one included, is mapped one-to-one into the
output. -/
theorem C7_no_validation :
    ∀ (ts : List ToolDescriptor) (t : ToolDescriptor), t ∈ ts →
      ClaudeTool.mk t.name t.description t.input_schema ∈
        format_tools_for_claude ts := by
  intro ts t ht
  rw [format_tools_for_claude_eq_map]
  exact List.mem_map_of_mem _ ht

/-- C7 witness: the amended statement evaluated on a concrete
empty-named descriptor. -/
theorem C7_no_validation_witness :
    ClaudeTool.mk "" "desc" JsonVal.null ∈
      format_tools_for_claude [ToolDescriptor.mk "" "desc" JsonVal.null] :=
  C7_no_validation [ToolDescriptor.mk "" "desc" JsonVal.null]
    (ToolDescriptor.mk "" "desc" JsonVal.null) (List.mem_singleton.mpr rfl)

/-- C1 counterexample: on an unknown tool name the bridge does not yield
a ToolInvocationResult at all — the unknown-tool ValueError escapes — and
no remote call is made. -/
theorem C1_counterexample :
    execute_tool ["list_calendar_events"] oracle0 "foo" [] =
      (Except.error (unknownToolMessage "foo" ["list_calendar_events"]), []) := by
  rfl

/-- C1 (amended): invoking the bridge with a tool_name absent from the
registry never contacts the remote service, and raises the unknown-tool
ValueError instead of returning a result dict. -/
theorem C1_unknown_tool (reg : List String)
    (callTool : String → ArgMap → Except String JsonVal)
    (tool_name : String) (arguments : ArgMap) (h : tool_name ∉ reg) :
    execute_tool reg callTool tool_name arguments =
      (Except.error (unknownToolMessage tool_name reg), []) := by
  simp [execute_tool, h]

/-- C1 witness: the amended statement on a concrete absent tool name. -/
theorem C1_unknown_tool_witness :
    execute_tool [] oracle0 "create_calendar_event" [] =
      (Except.error (unknownToolMessage "create_calendar_event" []), []) :=
  C1_unknown_tool [] oracle0 "create_calendar_event" [] (by simp)

/-- C2: whenever the protected body of a turn raises, the turn returns
the failure dict: success is false, the error string is the stringified
cause prefixed with "Failed to process request: ", and no results are
carried. -/
theorem C2_exception_to_failure (tools : List McpTool) (env : Env)
    (user_message : String) (e : String)
    (h : (turn_body tools env user_message).1 = Except.error e) :
    (process_request tools env user_message).1 =
      Outcome.failed ("Failed to process request: " ++ e) ∧
    Outcome.success (process_request tools env user_message).1 = false ∧
    Outcome.results (process_request tools env user_message).1 = none ∧
    Outcome.error (process_request tools env user_message).1 =
      some ("Failed to process request: " ++ e) := by
  rcases hb : turn_body tools env user_message with ⟨r, tr⟩
  rw [hb] at h
  simp only at h
  subst h
  simp [process_request, hb, Outcome.success, Outcome.results, Outcome.error]

/-- C2 witness: a turn whose initial model request raises "boom". -/
theorem C2_exception_to_failure_witness :
    (process_request [] envFail "hi").1 =
      Outcome.failed ("Failed to process request: " ++ "boom") ∧
    Outcome.success (process_request [] envFail "hi").1 = false ∧
    Outcome.results (process_request [] envFail "hi").1 = none ∧
    Outcome.error (process_request [] envFail "hi").1 =
      some ("Failed to process request: " ++ "boom") :=
  C2_exception_to_failure [] envFail "hi" "boom" rfl

lemma handleBlocks_all_text (reg : List String) (env : Env)
    (respC : List ContentBlock) :
    ∀ blocks : List ContentBlock,
      (∀ b ∈ blocks, ∃ s, b = ContentBlock.text s) →
      handleBlocks reg env respC blocks =
        (Except.ok (blocks.filterMap textEntryOf), []) := by
  intro blocks
  induction blocks with
  | nil => intro _; rfl
  | cons b rest ih =>
      intro h
      obtain ⟨s, rfl⟩ := h b (List.mem_cons_self b rest)
      have hrest := ih (fun b hb => h b (List.mem_cons_of_mem _ hb))
      simp [handleBlocks, hrest, textEntryOf, Except.map]

/-- C5: a turn whose model response contains only text segments yields a
successful outcome holding exactly those text segments in order, and the
trace is the single initial model request — the Execution Bridge is never
invoked. -/
theorem C5_text_only_turn (tools : List McpTool) (env : Env) (msg : String)
    (blocks : List ContentBlock)
    (hresp : env.create (format_tools_for_claude (get_available_tools tools)) msg =
      Except.ok blocks)
    (htext : ∀ b ∈ blocks, ∃ s, b = ContentBlock.text s) :
    process_request tools env msg =
      (Outcome.ok (blocks.filterMap textEntryOf) blocks, [Call.model_request msg]) := by
  have hb := handleBlocks_all_text (registryOf tools) env blocks blocks htext
  simp [process_request, turn_body, hresp, handle_claude_response, hb]

/-- C5 witness: a concrete turn whose model reply is one text segment. -/
theorem C5_text_only_turn_witness :
    process_request [] envText "m" =
      (Outcome.ok [ResultEntry.text "hello"] [ContentBlock.text "hello"],
       [Call.model_request "m"]) :=
  C5_text_only_turn [] envText "m" [ContentBlock.text "hello"] rfl
    (by intro b hb; rw [List.mem_singleton] at hb; exact ⟨"hello", hb⟩)

/-- C8: a command is treated as the terminating sentinel exactly when its
lower-cased form is "quit" or "exit"; the sentinel returns the quit
action with an empty trace (the Orchestrator is not invoked), and every
other command is forwarded to `process_request` as a user turn. -/
theorem C8_quit_sentinel :
    ∀ (tools : List McpTool) (env : Env) (command : String),
      (process_command tools env command = (CommandResult.quit, []) ↔
        pyLower command = "quit" ∨ pyLower command = "exit") ∧
      (¬(pyLower command = "quit" ∨ pyLower command = "exit") ↔
        process_command tools env command =
          (CommandResult.outcome (process_request tools env command).1,
           (process_request tools env command).2)) := by
  intro tools env command
  by_cases h : pyLower command = "quit" ∨ pyLower command = "exit"
  · constructor
    · simp [process_command, h]
    · simp only [h, not_true_eq_false, false_iff]
      intro hc
      rw [process_command, if_pos (by simpa using h)] at hc
      exact CommandResult.noConfusion (congrArg Prod.fst hc)
  · constructor
    · simp only [h, iff_false]
      intro hc
      rw [process_command, if_neg (by simpa using h)] at hc
      exact CommandResult.noConfusion (congrArg Prod.fst hc)
    · simp [process_command, h]

/-- C9: a `list_events` call that leaves the result cap at its default
sends an argument map whose `maxResults` is 10 to the bridge (whatever
the time window), and with no time window supplied the argument map is
exactly the singleton `maxResults = 10` — no time-bound fields. -/
theorem C9_list_events_defaults (reg : List String)
    (callTool : String → ArgMap → Except String JsonVal)
    (time_min time_max : Option String)
    (h : "list_calendar_events" ∈ reg) :
    (list_events reg callTool time_min time_max).2 =
      [Call.remote "list_calendar_events" (list_events_args time_min time_max 10)] ∧
    lookupArg "maxResults" (list_events_args time_min time_max 10) =
      some (JsonVal.int 10) ∧
    list_events_args none none 10 = [("maxResults", JsonVal.int 10)] := by
  refine ⟨?_, ?_, rfl⟩
  · rw [list_events, execute_tool, if_pos h]
    cases callTool "list_calendar_events" (list_events_args time_min time_max 10) <;> rfl
  · cases htm : pyTruthyStr time_min <;> cases htx : pyTruthyStr time_max <;>
      simp [list_events_args, lookupArg, List.lookup, htm, htx]

/-- C9 witness: the default call against a registry holding the tool. -/
theorem C9_list_events_defaults_witness :
    (list_events ["list_calendar_events"] oracle0 none none).2 =
      [Call.remote "list_calendar_events" (list_events_args none none 10)] ∧
    lookupArg "maxResults" (list_events_args none none 10) =
      some (JsonVal.int 10) ∧
    list_events_args none none 10 = [("maxResults", JsonVal.int 10)] :=
  C9_list_events_defaults ["list_calendar_events"] oracle0 none none
    (List.mem_singleton.mpr rfl)

/-- C10: in `create_calendar_event` a falsy optional argument (empty
description string, empty attendee list) produces the same argument map
as an absent one — the field is omitted — while `start` and `end` always
carry the fixed timeZone "America/New_York". -/
theorem C10_create_event_falsy_optionals :
    ∀ (summary st et : String) (d : Option String) (a : Option (List String)),
      create_calendar_event_args summary st et (some "") a =
        create_calendar_event_args summary st et none a ∧
      create_calendar_event_args summary st et d (some []) =
        create_calendar_event_args summary st et d none ∧
      lookupArg "start" (create_calendar_event_args summary st et d a) =
        some (JsonVal.obj [("dateTime", JsonVal.str st),
                           ("timeZone", JsonVal.str "America/New_York")]) ∧
      lookupArg "end" (create_calendar_event_args summary st et d a) =
        some (JsonVal.obj [("dateTime", JsonVal.str et),
                           ("timeZone", JsonVal.str "America/New_York")]) := by
  intro summary st et d a
  refine ⟨rfl, rfl, ?_, ?_⟩ <;>
    cases hd : pyTruthyStr d <;> cases ha : pyTruthyList a <;>
      simp [create_calendar_event_args, lookupArg, List.lookup, hd, ha]

lemma handleBlocks_total (reg : List String) (env : Env)
    (respC : List ContentBlock)
    (hfu : ∀ ms, ∃ bs, env.followUp ms = Except.ok bs) :
    ∀ blocks : List ContentBlock,
      (∀ n a i, ContentBlock.tool_use n a i ∈ blocks → n ∈ reg) →
      ∃ rs : List ResultEntry,
        handleBlocks reg env respC blocks = (Except.ok rs, blocks.flatMap blockTrace) ∧
        ∀ n a i e, ContentBlock.tool_use n a i ∈ blocks →
          env.callTool n a = Except.error e →
          ResultEntry.tool_execution n i a ⟨false, none, some e, n⟩ ∈ rs := by
  intro blocks
  induction blocks with
  | nil =>
      intro _
      exact ⟨[], rfl, fun n a i e h _ => absurd h (List.not_mem_nil _)⟩
  | cons b rest ih =>
      intro hreg
      obtain ⟨rs, hrs, hmem⟩ := ih (fun n a i h => hreg n a i (List.mem_cons_of_mem _ h))
      cases b with
      | text s =>
          refine ⟨ResultEntry.text s :: rs, ?_, ?_⟩
          · simp [handleBlocks, hrs, Except.map, blockTrace]
          · intro n a i e hm hf
            rcases List.mem_cons.mp hm with h | h
            · exact absurd h (by simp)
            · exact List.mem_cons_of_mem _ (hmem n a i e h hf)
      | tool_use n0 a0 i0 =>
          have hn0 : n0 ∈ reg := hreg n0 a0 i0 (List.mem_cons_self _ _)
          cases hct : env.callTool n0 a0 with
          | ok content =>
              obtain ⟨fbs, hfb⟩ := hfu [Message.user_text "Previous request",
                Message.assistant respC,
                Message.tool_result i0 ⟨true, some content, none, n0⟩]
              refine ⟨ResultEntry.tool_execution n0 i0 a0 ⟨true, some content, none, n0⟩ ::
                (fbs.filterMap finalEntryOf ++ rs), ?_, ?_⟩
              · simp [handleBlocks, execute_tool, hn0, hct, hfb, hrs, blockTrace,
                  Except.map]
              · intro n a i e hm hf
                rcases List.mem_cons.mp hm with h | h
                · obtain ⟨hn, ha, hi⟩ : n = n0 ∧ a = a0 ∧ i = i0 := by
                    simpa using h
                  subst hn; subst ha
                  rw [hct] at hf
                  exact Except.noConfusion hf
                · exact List.mem_cons_of_mem _
                    (List.mem_append_right _ (hmem n a i e h hf))
          | error e0 =>
              obtain ⟨fbs, hfb⟩ := hfu [Message.user_text "Previous request",
                Message.assistant respC,
                Message.tool_result i0 ⟨false, none, some e0, n0⟩]
              refine ⟨ResultEntry.tool_execution n0 i0 a0 ⟨false, none, some e0, n0⟩ ::
                (fbs.filterMap finalEntryOf ++ rs), ?_, ?_⟩
              · simp [handleBlocks, execute_tool, hn0, hct, hfb, hrs, blockTrace,
                  Except.map]
              · intro n a i e hm hf
                rcases List.mem_cons.mp hm with h | h
                · obtain ⟨hn, ha, hi⟩ : n = n0 ∧ a = a0 ∧ i = i0 := by
                    simpa using h
                  subst hn; subst ha; subst hi
                  rw [hct] at hf
                  obtain rfl : e0 = e := by simpa using hf
                  exact List.mem_cons_self _ _
                · exact List.mem_cons_of_mem _
                    (List.mem_append_right _ (hmem n a i e h hf))

lemma countRemote_flatMap_blockTrace :
    ∀ bs : List ContentBlock, countRemote (bs.flatMap blockTrace) = countToolUse bs := by
  intro bs
  induction bs with
  | nil => rfl
  | cons b rest ih =>
      cases b with
      | text s =>
          simpa [blockTrace, countRemote, countToolUse, List.countP_cons,
            isToolUse] using ih
      | tool_use n a i =>
          simp [blockTrace, List.flatMap_cons, countRemote, countToolUse,
            List.countP_append, List.countP_cons, isRemote, isToolUse] at *
          omega

lemma countFollowup_flatMap_blockTrace :
    ∀ bs : List ContentBlock, countFollowup (bs.flatMap blockTrace) = countToolUse bs := by
  intro bs
  induction bs with
  | nil => rfl
  | cons b rest ih =>
      cases b with
      | text s =>
          simpa [blockTrace, countFollowup, countToolUse, List.countP_cons,
            isToolUse] using ih
      | tool_use n a i =>
          simp [blockTrace, List.flatMap_cons, countFollowup, countToolUse,
            List.countP_append, List.countP_cons, isFollowup, isToolUse] at *
          omega

/-- C3 counterexample: first, a remote invocation that raises with an
empty stringified cause yields a tool_execution entry whose error string
is empty, not non-empty; second, when the follow-up model request also
raises, the turn whose remote invocation failed ends with overall
success=false and no tool_execution entry at all. -/
theorem C3_counterexample :
    (process_request toolsC3 envC3a "m").1 =
      Outcome.ok [ResultEntry.tool_execution "t" "i1" []
        ⟨false, none, some "", "t"⟩] respC3 ∧
    (process_request toolsC3 envC3b "m").1 =
      Outcome.failed "Failed to process request: overloaded" :=
  ⟨rfl, rfl⟩

/-- C3 (amended): when every tool-use segment of the response names a
registered tool and the model backend's requests succeed, a turn whose
remote invocation raises produces a tool_execution entry whose result has
success=false and error equal to the stringified cause, and the turn's
overall outcome still has success=true. -/
theorem C3_remote_failure_surfaced (tools : List McpTool) (env : Env)
    (msg : String) (blocks : List ContentBlock) (n : String) (a : ArgMap)
    (i e : String)
    (hresp : env.create (format_tools_for_claude (get_available_tools tools)) msg =
      Except.ok blocks)
    (hreg : ∀ n' a' i', ContentBlock.tool_use n' a' i' ∈ blocks →
      n' ∈ registryOf tools)
    (hfu : ∀ ms, ∃ bs, env.followUp ms = Except.ok bs)
    (hmem : ContentBlock.tool_use n a i ∈ blocks)
    (hfail : env.callTool n a = Except.error e) :
    Outcome.success (process_request tools env msg).1 = true ∧
    ResultEntry.tool_execution n i a ⟨false, none, some e, n⟩ ∈
      Outcome.entries (process_request tools env msg).1 := by
  obtain ⟨rs, hrs, hm⟩ :=
    handleBlocks_total (registryOf tools) env blocks hfu blocks hreg
  have hpr : process_request tools env msg =
      (Outcome.ok rs blocks,
       Call.model_request msg :: blocks.flatMap blockTrace) := by
    simp [process_request, turn_body, hresp, handle_claude_response, hrs]
  rw [hpr]
  exact ⟨rfl, by simpa [Outcome.entries, Outcome.results] using hm n a i e hmem hfail⟩

/-- C3 witness: a concrete turn whose single tool invocation raises with
cause "bad arguments" while the model requests succeed. -/
theorem C3_remote_failure_surfaced_witness :
    Outcome.success (process_request toolsC3 envC3 "m").1 = true ∧
    ResultEntry.tool_execution "t" "i1" [] ⟨false, none, some "bad arguments", "t"⟩ ∈
      Outcome.entries (process_request toolsC3 envC3 "m").1 :=
  C3_remote_failure_surfaced toolsC3 envC3 "m" respC3 "t" [] "i1" "bad arguments"
    rfl
    (by
      intro n' a' i' h
      rw [show respC3 = [ContentBlock.tool_use "t" [] "i1"] from rfl,
        List.mem_singleton] at h
      obtain ⟨hn, -, -⟩ : n' = "t" ∧ a' = [] ∧ i' = "i1" := by simpa using h
      rw [hn]
      exact List.mem_singleton.mpr rfl)
    (fun ms => ⟨[], rfl⟩)
    (List.mem_singleton.mpr rfl)
    rfl

/-- C4 counterexample: a response with two tool-use segments whose first
names an unregistered tool performs zero remote invocations and zero
follow-up requests — the unknown-tool ValueError aborts the loop — not
two of each. -/
theorem C4_counterexample :
    countToolUse blocksC4 = 2 ∧
    (handle_claude_response ["t"] envC4 blocksC4).2 = [] ∧
    countRemote (handle_claude_response ["t"] envC4 blocksC4).2 = 0 ∧
    countFollowup (handle_claude_response ["t"] envC4 blocksC4).2 = 0 :=
  ⟨rfl, rfl, rfl, rfl⟩

/-- C4 (amended): when every tool-use segment names a registered tool and
each follow-up model request returns without raising, the orchestrator's
trace for the response is exactly, per segment in response order, the
remote invocation followed by its follow-up request — hence exactly N
remote invocations and N follow-up requests for N tool-use segments. -/
theorem C4_sequential_invocations (reg : List String) (env : Env)
    (blocks : List ContentBlock)
    (hreg : ∀ n a i, ContentBlock.tool_use n a i ∈ blocks → n ∈ reg)
    (hfu : ∀ ms, ∃ bs, env.followUp ms = Except.ok bs) :
    (handle_claude_response reg env blocks).2 = blocks.flatMap blockTrace ∧
    countRemote (handle_claude_response reg env blocks).2 = countToolUse blocks ∧
    countFollowup (handle_claude_response reg env blocks).2 = countToolUse blocks := by
  obtain ⟨rs, hrs, -⟩ := handleBlocks_total reg env blocks hfu blocks hreg
  have h2 : (handle_claude_response reg env blocks).2 = blocks.flatMap blockTrace := by
    simp [handle_claude_response, hrs]
  exact ⟨h2, by rw [h2, countRemote_flatMap_blockTrace],
    by rw [h2, countFollowup_flatMap_blockTrace]⟩

/-- C4 witness: a concrete response with two registered tool-use
segments gives two remote invocations and two follow-ups, in order. -/
theorem C4_sequential_invocations_witness :
    (handle_claude_response ["t", "u"] envC4w blocksC4w).2 =
      blocksC4w.flatMap blockTrace ∧
    countRemote (handle_claude_response ["t", "u"] envC4w blocksC4w).2 =
      countToolUse blocksC4w ∧
    countFollowup (handle_claude_response ["t", "u"] envC4w blocksC4w).2 =
      countToolUse blocksC4w :=
  C4_sequential_invocations ["t", "u"] envC4w blocksC4w
    (by
      intro n a i h
      rw [show blocksC4w = [ContentBlock.tool_use "t" [] "i1",
        ContentBlock.tool_use "u" [] "i2"] from rfl] at h
      rcases List.mem_cons.mp h with h1 | h1
      · obtain ⟨hn, -, -⟩ : n = "t" ∧ a = [] ∧ i = "i1" := by simpa using h1
        rw [hn]; exact List.mem_cons_self _ _
      · obtain ⟨hn, -, -⟩ : n = "u" ∧ a = [] ∧ i = "i2" := by simpa using h1
        rw [hn]; exact List.mem_cons_of_mem _ (List.mem_singleton.mpr rfl))
    (fun ms => ⟨[], rfl⟩)

/-- C8 witness: the sentinel behaviour evaluated on the concrete command
"QUIT" (upper case), which returns the quit action with no calls made. -/
theorem C8_quit_sentinel_witness :
    process_command [] envText "QUIT" = (CommandResult.quit, []) :=
  (C8_quit_sentinel [] envText "QUIT").1.mpr (Or.inl (by decide))
